import Mathlib

/-!
# Raw-socket Ethernet adapter for lwIP: embedding of `ethernetif.c`

The adapter in `lwip/contrib/ports/unix/port/netif/ethernetif.c` moves Ethernet
frames between two Linux packet sockets and the lwIP stack.  The functions of
that file are embedded here as pure functions: every value that the operating
system or the stack hands to the adapter (return values of `socket`, `ioctl`,
`setsockopt`, `sendto`, `recvfrom`, the outcome of `pbuf_alloc`, the verdict
of the input callback, the stale contents of uninitialised memory) is an
explicit argument, and every effect (statistics counters, the buffer handed
back to the caller, the calls made to the collaborators) is part of the
result.

The lwIP buffer library (`pbuf.c`) and the statistics headers are not part of
the adapter file; their operations are modelled in the first section.
-/

namespace Ethernetif

/-! ## Collaborators: error codes, buffers, counters -/

/-- Size of the two scratch buffers, `#define ETH_BUF_SIZ 1518`. -/
def ETH_BUF_SIZ : Nat := 1518

/-- Modelled from the spec: `ETHARP_HWADDR_LEN`, declared in the lwIP headers;
the spec fixes the hardware address at 6 bytes. -/
def ETHARP_HWADDR_LEN : Nat := 6

/-- Modelled from the spec: the capability bits `NETIF_FLAG_BROADCAST`,
`NETIF_FLAG_ETHARP` and `NETIF_FLAG_LINK_UP` of the lwIP headers, or-ed. -/
def NETIF_FLAGS_ETHERNET : Nat := 0x02 ||| 0x08 ||| 0x04

/-- The interface flag `IFF_PROMISC` of the Linux headers. -/
def IFF_PROMISC : Nat := 0x100

/-- The lwIP error codes (`err_t`).  The adapter itself produces `ERR_OK`,
`ERR_MEM` and `ERR_IF`; the stack's input callback may answer with any. -/
inductive err_t
  | ERR_OK | ERR_MEM | ERR_BUF | ERR_TIMEOUT | ERR_RTE | ERR_INPROGRESS | ERR_VAL
  | ERR_WOULDBLOCK | ERR_USE | ERR_ALREADY | ERR_ISCONN | ERR_CONN | ERR_IF
  | ERR_ABRT | ERR_RST | ERR_CLSD | ERR_ARG
  deriving DecidableEq

/-- A 6-byte link-layer address (`struct eth_addr`, the first six bytes of
`sll_addr`, `netif->hwaddr`). -/
structure eth_addr where
  a0 : Nat
  a1 : Nat
  a2 : Nat
  a3 : Nat
  a4 : Nat
  a5 : Nat
  deriving DecidableEq

/-- Modelled from the spec: `struct pbuf`, the stack's buffer.  The chain is
kept by its bytes in order: `payload` is what lies from the payload pointer to
the end of the chain (so `tot_len` is its length), `hidden` is the header room
between the start of the storage and the payload pointer. -/
structure Pbuf where
  hidden : List Nat
  payload : List Nat
  deriving DecidableEq

/-- The field `tot_len` of a buffer. -/
def Pbuf.tot_len (p : Pbuf) : Nat := p.payload.length

/-- Modelled from the spec: `pbuf_remove_header` (buffer header remove).  It
moves the payload pointer forward by `k` bytes and shortens the buffer by as
much; it refuses, leaving the buffer as it is, when `k` exceeds 0xFFFF or the
bytes available.  The adapter ignores its return value, so only the buffer is
returned. -/
def pbuf_remove_header (p : Pbuf) (k : Nat) : Pbuf :=
  if k > 0xFFFF then p
  else if k = 0 then p
  else if k > p.payload.length then p
  else { hidden := p.hidden ++ p.payload.take k, payload := p.payload.drop k }

/-- Modelled from the spec: `pbuf_add_header` (buffer header add).  It moves
the payload pointer back by `k` bytes and lengthens the buffer by as much; it
refuses, leaving the buffer as it is, when `k` exceeds 0xFFFF, when the 16-bit
total length would wrap, or when fewer than `k` bytes of header room exist.
The adapter ignores its return value. -/
def pbuf_add_header (p : Pbuf) (k : Nat) : Pbuf :=
  if k > 0xFFFF then p
  else if k = 0 then p
  else if (k + p.tot_len) % 65536 < k then p
  else if k > p.hidden.length then p
  else { hidden := p.hidden.take (p.hidden.length - k),
         payload := p.hidden.drop (p.hidden.length - k) ++ p.payload }

/-- Modelled from the spec: `pbuf_copy_partial` (buffer byte-range copy-out):
the bytes copied, at most `len` of them starting at `offset`. -/
def pbuf_copy_partial (p : Pbuf) (len offset : Nat) : List Nat :=
  (p.payload.drop offset).take len

/-- Modelled from the spec: `pbuf_take` (buffer byte-range copy-in) from the
memory `data` (a byte for every offset).  As in lwIP, a copy longer than the
buffer's total length is refused with `ERR_MEM` and writes nothing; otherwise
the first `len` bytes of the buffer are overwritten. -/
def pbuf_take (p : Pbuf) (data : Nat → Nat) (len : Nat) : err_t × Pbuf :=
  if p.tot_len < len then (err_t.ERR_MEM, p)
  else (err_t.ERR_OK, { p with payload := (List.range len).map data ++ p.payload.drop len })

/-- Modelled from the spec: `pbuf_alloc(PBUF_RAW, len, PBUF_POOL)` (buffer
allocation by size, from a pool).  `pool` is `none` when the pool is
exhausted; otherwise it gives the stale byte found at every offset of the
storage handed out.  A raw buffer has no header room. -/
def pbuf_alloc (pool : Option (Nat → Nat)) (len : Nat) : Option Pbuf :=
  pool.map fun junk => { hidden := [], payload := (List.range len).map junk }

/-- Modelled from the spec: the statistics counters the adapter touches
through `MIB2_STATS_NETIF_INC`, `MIB2_STATS_NETIF_ADD` and `LINK_STATS_INC`
(declared in the lwIP headers).  Each counter is the tally of what was added
to it: an increment adds one. -/
structure Stats where
  ifinoctets : Nat
  ifinucastpkts : Nat
  ifinnucastpkts : Nat
  ifindiscards : Nat
  ifoutoctets : Nat
  ifoutucastpkts : Nat
  ifoutnucastpkts : Nat
  ifoutdiscards : Nat
  link_xmit : Nat
  link_recv : Nat
  deriving DecidableEq

/-- Calls the adapter makes to its collaborators on the data path, in order. -/
inductive Call
  | sendto (fd : Int) (bytes : List Nat) (len : Nat) (dst : eth_addr) (ifindex : Int)
  | pbuf_alloc (len : Nat)
  | pbuf_take (len : Nat)
  | input (p : Pbuf)
  | pbuf_free (p : Pbuf)
  deriving DecidableEq

/-! ## The adapter's records -/

/-- The part of `struct sockaddr_ll socket_address` the adapter writes. -/
structure sockaddr_ll where
  sll_ifindex : Int
  sll_addr : eth_addr
  deriving DecidableEq

/-- The adapter record, `struct ethernetif`.  Of the three `struct ifreq`
members the fields the adapter reads back are kept: `if_idx.ifr_ifindex`,
`if_mac.ifr_hwaddr.sa_data` and `ifopts.ifr_flags`. -/
structure ethernetif where
  ethaddr : eth_addr
  ifName : String
  send_sockfd : Int
  if_idx_ifindex : Int
  if_mac_sa_data : List Nat
  socket_address : sockaddr_ll
  recv_sockfd : Int
  ifopts_flags : Nat
  sockopt : Int
  deriving DecidableEq

/-- The function values stored in the hooks of the interface record. -/
inductive Hook
  | etharp_output | ethip6_output | low_level_ethernetif_output
  deriving DecidableEq

/-- The fields of lwIP's `struct netif` that the adapter writes. -/
structure netif where
  hwaddr : eth_addr
  hwaddr_len : Nat
  mtu : Nat
  flags : Nat
  name : List Char
  output : Option Hook
  output_ip6 : Option Hook
  linkoutput : Option Hook
  state : Option ethernetif
  deriving DecidableEq

/-- Build configuration: the preprocessor symbols the file branches on. -/
structure Config where
  ETH_PAD_SIZE : Nat
  NO_SYS : Bool
  LWIP_IPV4 : Bool
  LWIP_IPV6 : Bool
  deriving DecidableEq

/-- What the operating system answers during bring-up: the return value of
every provisioning call and the data the successful queries report.
`malloc_block` is the result of `mem_malloc`: `none` on exhaustion, otherwise
the uninitialised contents of the block. -/
structure OsEnv where
  malloc_block : Option ethernetif
  socket_send : Int
  ioctl_ifindex : Int
  ifr_ifindex : Int
  ioctl_hwaddr : Int
  sa_data : List Nat
  socket_recv : Int
  ioctl_getflags : Int
  ifr_flags : Nat
  ioctl_setflags : Int
  setsockopt_reuseaddr : Int
  setsockopt_bindtodevice : Int
  deriving DecidableEq

/-- A function that may end the process instead of returning: by `exit`, or
by a failed `LWIP_ASSERT`. -/
inductive Outcome (α : Type)
  | exit (status : Nat)
  | abort
  | ret (a : α)
  deriving DecidableEq

/-! ## Transmit path -/

/-- The lines `#if ETH_PAD_SIZE` / `pbuf_remove_header(p, ETH_PAD_SIZE)` /
`#endif`: drop the padding word. -/
def drop_padding (cfg : Config) (p : Pbuf) : Pbuf :=
  if cfg.ETH_PAD_SIZE ≠ 0 then pbuf_remove_header p cfg.ETH_PAD_SIZE else p

/-- The lines `#if ETH_PAD_SIZE` / `pbuf_add_header(p, ETH_PAD_SIZE)` /
`#endif`: reclaim the padding word. -/
def reclaim_padding (cfg : Config) (p : Pbuf) : Pbuf :=
  if cfg.ETH_PAD_SIZE ≠ 0 then pbuf_add_header p cfg.ETH_PAD_SIZE else p

/-- Result of one call of the link-layer output hook: the value returned, the
counters, the adapter record, the caller's buffer as the call leaves it, and
the operating-system calls made. -/
structure TxResult where
  err : err_t
  stats : Stats
  eif : ethernetif
  p : Pbuf
  calls : List Call
  deriving DecidableEq

/-- The function `low_level_ethernetif_output`.  `stack` is the stale content
of the local `buf` before the copy, `stray` the byte found at the payload
pointer of an empty buffer, `w` the value `sendto` returns. -/
def low_level_ethernetif_output (cfg : Config) (e : ethernetif) (st : Stats) (p : Pbuf)
    (stack : Nat → Nat) (stray : Nat) (w : Int) : TxResult :=
  let p1 := drop_padding cfg p
  if p1.tot_len > ETH_BUF_SIZ then
    { err := err_t.ERR_IF, stats := { st with ifoutdiscards := st.ifoutdiscards + 1 },
      eif := e, p := p1, calls := [] }
  else
    let buf : Nat → Nat := fun i => ( pbuf_copy_partial p1 p1.tot_len 0).getD i (stack i)
    let e1 : ethernetif :=
      { e with socket_address :=
          { e.socket_address with sll_addr := ⟨buf 0, buf 1, buf 2, buf 3, buf 4, buf 5⟩ } }
    let call := Call.sendto e1.send_sockfd ((List.range p1.tot_len).map buf) p1.tot_len
      e1.socket_address.sll_addr e1.socket_address.sll_ifindex
    if w < (p1.tot_len : Int) then
      { err := err_t.ERR_IF, stats := { st with ifoutdiscards := st.ifoutdiscards + 1 },
        eif := e1, p := p1, calls := [call] }
    else
      let st1 := { st with ifoutoctets := st.ifoutoctets + (w % 4294967296).toNat }
      let st2 :=
        if p1.payload.headD stray &&& 1 ≠ 0 then
          { st1 with ifoutnucastpkts := st1.ifoutnucastpkts + 1 }
        else
          { st1 with ifoutucastpkts := st1.ifoutucastpkts + 1 }
      let p2 := reclaim_padding cfg p1
      { err := err_t.ERR_OK, stats := { st2 with link_xmit := st2.link_xmit + 1 },
        eif := e1, p := p2, calls := [call] }

/-! ## Receive path -/

/-- Result of one call of `low_level_ethernetif_input`: the buffer returned
(`none` for NULL), the counters, and the calls made to the buffer library. -/
structure RxResult where
  p : Option Pbuf
  stats : Stats
  calls : List Call
  deriving DecidableEq

/-- The scratch buffer after `recvfrom` delivered the bytes `b`: those bytes
first, the stale bytes `stale` behind them. -/
def scratch (b : List Nat) (stale : Nat → Nat) : Nat → Nat :=
  fun i => b.getD i (stale i)

/-- The function `low_level_ethernetif_input`.  `r` is the value `recvfrom`
returns, `buf` the memory at the local `buf` after that call, `pool` the
allocator's answer, `stray` the byte found at the payload pointer of an empty
buffer. -/
def low_level_ethernetif_input (cfg : Config) (st : Stats) (r : Int) (buf : Nat → Nat)
    (pool : Option (Nat → Nat)) (stray : Nat) : RxResult :=
  let len0 : Nat := (r % 65536).toNat
  let len : Nat := if cfg.ETH_PAD_SIZE ≠ 0 then (len0 + cfg.ETH_PAD_SIZE) % 65536 else len0
  match pbuf_alloc pool len with
  | some p0 =>
    let p1 := drop_padding cfg p0
    let p2 := (pbuf_take p1 buf len).2
    let st1 := { st with ifinoctets := st.ifinoctets + p2.tot_len }
    let st2 :=
      if p2.payload.headD stray &&& 1 ≠ 0 then
        { st1 with ifinnucastpkts := st1.ifinnucastpkts + 1 }
      else
        { st1 with ifinucastpkts := st1.ifinucastpkts + 1 }
    let p3 := reclaim_padding cfg p2
    { p := some p3, stats := { st2 with link_recv := st2.link_recv + 1 },
      calls := [Call.pbuf_alloc len, Call.pbuf_take len] }
  | none =>
    { p := none, stats := { st with ifindiscards := st.ifindiscards + 1 },
      calls := [Call.pbuf_alloc len] }

/-- The function `ethernetif_input`: one reception step.  `input` is the
callback registered in `netif->input`.  The function returns nothing; the
result here is what it leaves behind: the counters and the calls made. -/
def ethernetif_input (cfg : Config) (st : Stats) (r : Int) (buf : Nat → Nat)
    (pool : Option (Nat → Nat)) (stray : Nat) (input : Pbuf → err_t) : Stats × List Call :=
  let rx := low_level_ethernetif_input cfg st r buf pool stray
  match rx.p with
  | some p =>
    if input p ≠ err_t.ERR_OK then
      (rx.stats, rx.calls ++ [Call.input p, Call.pbuf_free p])
    else
      (rx.stats, rx.calls ++ [Call.input p])
  | none => (rx.stats, rx.calls)

/-- The function `ethernetif_poll`. -/
def ethernetif_poll (cfg : Config) (st : Stats) (r : Int) (buf : Nat → Nat)
    (pool : Option (Nat → Nat)) (stray : Nat) (input : Pbuf → err_t) : Stats × List Call :=
  ethernetif_input cfg st r buf pool stray input

/-- The frame a returned buffer carries once its padding region is removed. -/
def frameOf (cfg : Config) (p : Pbuf) : List Nat :=
  (drop_padding cfg p).payload

/-! ## Bring-up -/

/-- The interface name, `#define DEFAULT_IF "eth1"`. -/
def DEFAULT_IF : String := "eth1"

/-- The receive-endpoint configuration.  The same block of statements stands
twice in the file: in `low_level_ethernetif_init` when `NO_SYS` is set, and at
the head of `ethernetif_thread` otherwise.  The return values of the two
`ioctl` calls on the interface flags are not examined by the code. -/
def recv_endpoint_config (os : OsEnv) (e : ethernetif) : Outcome ethernetif :=
  let e1 := { e with recv_sockfd := os.socket_recv }
  if e1.recv_sockfd = -1 then Outcome.exit 1
  else
    let e2 :=
      { e1 with ifopts_flags := if os.ioctl_getflags < 0 then e1.ifopts_flags else os.ifr_flags }
    let e3 := { e2 with ifopts_flags := e2.ifopts_flags ||| IFF_PROMISC }
    if os.setsockopt_reuseaddr = -1 then Outcome.exit 1
    else if os.setsockopt_bindtodevice = -1 then Outcome.exit 1
    else Outcome.ret e3

/-- The function `low_level_ethernetif_init`.  The boolean of the result
tells whether the receiving thread was created (`sys_thread_new`).  The call
of the stack's multicast-filter hook in the IPv6 MLD build is left out. -/
def low_level_ethernetif_init (cfg : Config) (os : OsEnv) (n : netif) :
    Outcome (netif × Bool) :=
  match n.state with
  | none => Outcome.abort
  | some e =>
    let e1 := { e with ifName := DEFAULT_IF }
    let e2 := { e1 with send_sockfd := os.socket_send }
    if e2.send_sockfd = -1 then Outcome.exit 1
    else if os.ioctl_ifindex < 0 then Outcome.exit 1
    else
      let e3 := { e2 with if_idx_ifindex := os.ifr_ifindex }
      let e4 :=
        { e3 with socket_address := { e3.socket_address with sll_ifindex := e3.if_idx_ifindex } }
      if os.ioctl_hwaddr < 0 then Outcome.exit 1
      else
        let e5 := { e4 with if_mac_sa_data := os.sa_data }
        let sa : Nat → Nat := fun i => e5.if_mac_sa_data.getD i 0
        let e6 := { e5 with ethaddr := ⟨sa 0, sa 1, sa 2, sa 3, sa 4, sa 5⟩ }
        let n1 := { n with hwaddr_len := ETHARP_HWADDR_LEN }
        let n2 :=
          { n1 with hwaddr := ⟨e6.ethaddr.a0, e6.ethaddr.a1, e6.ethaddr.a2,
                               e6.ethaddr.a3, e6.ethaddr.a4, e6.ethaddr.a5⟩ }
        let n3 := { n2 with mtu := 1500 }
        let n4 := { n3 with flags := NETIF_FLAGS_ETHERNET }
        if cfg.NO_SYS = false then Outcome.ret ({ n4 with state := some e6 }, true)
        else
          match recv_endpoint_config os e6 with
          | Outcome.exit c => Outcome.exit c
          | Outcome.abort => Outcome.abort
          | Outcome.ret e7 => Outcome.ret ({ n4 with state := some e7 }, false)

/-- The function `ethernetif_init`: the value returned, the interface record,
and whether the receiving thread was created. -/
def ethernetif_init (cfg : Config) (os : OsEnv) (n : netif) :
    Outcome (err_t × netif × Bool) :=
  match os.malloc_block with
  | none => Outcome.ret (err_t.ERR_MEM, n, false)
  | some e0 =>
    let n1 := { n with state := some e0 }
    let n2 := { n1 with name := ['e', 't', 'h', '1'] }
    let n3 := if cfg.LWIP_IPV4 then { n2 with output := some Hook.etharp_output } else n2
    let n4 := if cfg.LWIP_IPV6 then { n3 with output_ip6 := some Hook.ethip6_output } else n3
    let n5 := { n4 with linkoutput := some Hook.low_level_ethernetif_output }
    let e1 :=
      { e0 with ethaddr := ⟨n5.hwaddr.a0, n5.hwaddr.a1, n5.hwaddr.a2,
                            n5.hwaddr.a3, n5.hwaddr.a4, n5.hwaddr.a5⟩ }
    match low_level_ethernetif_init cfg os { n5 with state := some e1 } with
    | Outcome.exit c => Outcome.exit c
    | Outcome.abort => Outcome.abort
    | Outcome.ret (n6, spawned) => Outcome.ret (err_t.ERR_OK, n6, spawned)

/-- The function `ethernetif_thread` up to the entry of its endless loop: it
configures the receive endpoint and, if it gets that far, repeats
`ethernetif_input` for ever. -/
def ethernetif_thread (os : OsEnv) (n : netif) : Outcome netif :=
  match n.state with
  | none => Outcome.abort
  | some e =>
    match recv_endpoint_config os e with
    | Outcome.exit c => Outcome.exit c
    | Outcome.abort => Outcome.abort
    | Outcome.ret e1 => Outcome.ret { n with state := some e1 }

/-- How bringing the interface up ends. -/
inductive BringUp
  | terminated (status : Nat)
  | aborted
  | refused (e : err_t)
  | listening (n : netif)
  deriving DecidableEq

/-- Interface bring-up followed by the receive-endpoint configuration, in the
order the code runs them: `ethernetif_init`, then, when it created the
receiving thread, the head of `ethernetif_thread`.  The interface is usable
(listening) when both got through. -/
def bring_up (cfg : Config) (os : OsEnv) (n : netif) : BringUp :=
  match ethernetif_init cfg os n with
  | Outcome.exit c => BringUp.terminated c
  | Outcome.abort => BringUp.aborted
  | Outcome.ret (err, n1, spawned) =>
    if err ≠ err_t.ERR_OK then BringUp.refused err
    else if spawned then
      match ethernetif_thread os n1 with
      | Outcome.exit c => BringUp.terminated c
      | Outcome.abort => BringUp.aborted
      | Outcome.ret n2 => BringUp.listening n2
    else BringUp.listening n1

/-- A provisioning call failed: the system calls used here report failure by
returning -1. -/
def failed (r : Int) : Prop := r = -1

instance (r : Int) : Decidable (failed r) := by unfold failed; infer_instance

/-! ## Concrete inputs used in the examples -/

/-- A build without padding, polled reception. -/
def cfgNoPad : Config := { ETH_PAD_SIZE := 0, NO_SYS := true, LWIP_IPV4 := true, LWIP_IPV6 := false }

/-- A build with a two-byte padding word, polled reception. -/
def cfgPad2 : Config := { ETH_PAD_SIZE := 2, NO_SYS := true, LWIP_IPV4 := true, LWIP_IPV6 := false }

/-- A build without padding whose reception runs in its own thread. -/
def cfgThread : Config :=
  { ETH_PAD_SIZE := 0, NO_SYS := false, LWIP_IPV4 := true, LWIP_IPV6 := false }

/-- All counters at zero. -/
def stats0 : Stats :=
  { ifinoctets := 0, ifinucastpkts := 0, ifinnucastpkts := 0, ifindiscards := 0,
    ifoutoctets := 0, ifoutucastpkts := 0, ifoutnucastpkts := 0, ifoutdiscards := 0,
    link_xmit := 0, link_recv := 0 }

/-- The all-zero address. -/
def zeroAddr : eth_addr := ⟨0, 0, 0, 0, 0, 0⟩

/-- An adapter record bound to interface index 3, sending on descriptor 4. -/
def eif0 : ethernetif :=
  { ethaddr := zeroAddr, ifName := "eth1", send_sockfd := 4, if_idx_ifindex := 3,
    if_mac_sa_data := [], socket_address := { sll_ifindex := 3, sll_addr := zeroAddr },
    recv_sockfd := 5, ifopts_flags := 0, sockopt := 0 }

/-- Memory that reads as zero everywhere. -/
def zeroMem : Nat → Nat := fun _ => 0

/-- A 1514-byte frame addressed to ff:ff:ff:ff:ff:ff. -/
def bcast1514 : Pbuf := { hidden := [], payload := List.replicate 6 255 ++ List.replicate 1508 0 }

/-- A 2000-byte frame. -/
def big2000 : Pbuf := { hidden := [], payload := List.replicate 2000 0 }

/-- A 14-byte unicast frame (header only). -/
def frame14 : List Nat := [2, 0, 0, 0, 0, 1, 2, 0, 0, 0, 0, 2, 8, 0]

/-- The 14-byte frame in a buffer without padding. -/
def pbuf14 : Pbuf := { hidden := [], payload := frame14 }

/-- The 14-byte frame behind a two-byte padding word. -/
def padded16 : Pbuf := { hidden := [], payload := 0 :: 0 :: frame14 }

/-- A 2000-byte frame behind a two-byte padding word. -/
def padded2002 : Pbuf := { hidden := [], payload := List.replicate 2002 0 }

/-- Sixty-four bytes of unicast traffic (bit 0 of the first byte clear). -/
def unicast64 : List Nat := 2 :: List.replicate 63 0

/-- A callback that accepts every frame. -/
def acceptAll : Pbuf → err_t := fun _ => err_t.ERR_OK

/-- The calls of a reception step that hand a frame on or release it. -/
def isDelivery : Call → Bool
  | Call.input _ => true
  | Call.pbuf_free _ => true
  | _ => false

/-- The hardware address held in the first six bytes of `sa_data`; bytes the
system did not write read as zero (the request is cleared beforehand). -/
def macOf (sa_data : List Nat) : eth_addr :=
  ⟨sa_data.getD 0 0, sa_data.getD 1 0, sa_data.getD 2 0,
   sa_data.getD 3 0, sa_data.getD 4 0, sa_data.getD 5 0⟩

/-- The conditions under which the code calls `exit` during bring-up and
receive-endpoint configuration. -/
def exits (os : OsEnv) : Prop :=
  os.socket_send = -1 ∨ os.ioctl_ifindex < 0 ∨ os.ioctl_hwaddr < 0 ∨ os.socket_recv = -1 ∨
  os.setsockopt_reuseaddr = -1 ∨ os.setsockopt_bindtodevice = -1

/-- The listening state was reached. -/
def BringUp.isListening : BringUp → Bool
  | BringUp.listening _ => true
  | _ => false

/-- An interface record before initialisation. -/
def netif0 : netif :=
  { hwaddr := zeroAddr, hwaddr_len := 0, mtu := 0, flags := 0, name := [],
    output := none, output_ip6 := none, linkoutput := none, state := none }

/-- The system answers for interface "eth1" with hardware address
aa:bb:cc:dd:ee:ff and index 3; every call succeeds. -/
def osEth1 : OsEnv :=
  { malloc_block := some eif0, socket_send := 4, ioctl_ifindex := 0, ifr_ifindex := 3,
    ioctl_hwaddr := 0, sa_data := [0xaa, 0xbb, 0xcc, 0xdd, 0xee, 0xff, 0, 0, 0, 0, 0, 0, 0, 0],
    socket_recv := 5, ioctl_getflags := 0, ifr_flags := 0x1043, ioctl_setflags := 0,
    setsockopt_reuseaddr := 0, setsockopt_bindtodevice := 0 }

/-- The same answers, except that both queries on the interface flags fail. -/
def osPromiscFails : OsEnv := { osEth1 with ioctl_getflags := -1, ioctl_setflags := -1 }

/-- The same answers, except that binding to the device fails. -/
def osBindFails : OsEnv := { osEth1 with setsockopt_bindtodevice := -1 }

/-- Memory that reads as zero inside the 1518 bytes of the scratch buffer and
as one behind it. -/
def beyondMem : Nat → Nat := fun i => if i < ETH_BUF_SIZ then 0 else 1

/-- Memory that reads as seven everywhere. -/
def sevenMem : Nat → Nat := fun _ => 7

/-! ## Transmit path: properties -/

theorem drop_padding_cfgNoPad (p : Pbuf) : drop_padding cfgNoPad p = p := rfl

theorem and_one_ne_zero (x : Nat) : (x &&& 1 ≠ 0) ↔ x % 2 = 1 := by
  rw [Nat.and_one_is_mod]; omega

/-- C1: a frame that is longer than 1518 bytes once its padding is stripped
makes `low_level_ethernetif_output` return `ERR_IF` without any `sendto`
call; `ifoutdiscards` goes up by one and every other counter keeps its
value. -/
theorem low_level_ethernetif_output_too_large (cfg : Config) (e : ethernetif) (st : Stats)
    (p : Pbuf) (stack : Nat → Nat) (stray : Nat) (w : Int)
    (h : 1518 < (frameOf cfg p).length) :
    (low_level_ethernetif_output cfg e st p stack stray w).err = err_t.ERR_IF ∧
    (low_level_ethernetif_output cfg e st p stack stray w).calls = [] ∧
    (low_level_ethernetif_output cfg e st p stack stray w).stats
      = { st with ifoutdiscards := st.ifoutdiscards + 1 } := by
  unfold frameOf at h
  unfold low_level_ethernetif_output
  simp only [Pbuf.tot_len, ETH_BUF_SIZ]
  rw [if_pos h]
  exact ⟨rfl, rfl, rfl⟩

/-- C1, the scenario of the specification: a 2000-byte frame is refused with
`ERR_IF`, nothing is sent, and the discard counter stands at one. -/
theorem low_level_ethernetif_output_2000 :
    (low_level_ethernetif_output cfgNoPad eif0 stats0 big2000 zeroMem 0 2000).err
      = err_t.ERR_IF ∧
    (low_level_ethernetif_output cfgNoPad eif0 stats0 big2000 zeroMem 0 2000).calls = [] ∧
    (low_level_ethernetif_output cfgNoPad eif0 stats0 big2000 zeroMem 0 2000).stats
      = { stats0 with ifoutdiscards := stats0.ifoutdiscards + 1 } :=
  low_level_ethernetif_output_too_large cfgNoPad eif0 stats0 big2000 zeroMem 0 2000
    (by rw [frameOf, drop_padding_cfgNoPad, big2000]
        simp only [List.length_replicate]
        omega)

theorem low_level_ethernetif_output_err (cfg : Config) (e : ethernetif) (st : Stats)
    (p : Pbuf) (stack : Nat → Nat) (stray : Nat) (w : Int)
    (hlen : (frameOf cfg p).length ≤ 1518) :
    (low_level_ethernetif_output cfg e st p stack stray w).err
      = if w < ((frameOf cfg p).length : Int) then err_t.ERR_IF else err_t.ERR_OK := by
  unfold frameOf at hlen ⊢
  unfold low_level_ethernetif_output
  simp only [Pbuf.tot_len, ETH_BUF_SIZ]
  generalize drop_padding cfg p = q at hlen ⊢
  rw [if_neg (by omega)]
  by_cases hw : w < (q.payload.length : Int)
  · simp only [hw, if_true]
  · simp only [hw, if_false]

/-- C2: when a frame of at most 1518 bytes is sent and the call returns
`ERR_OK` (the operating system never reporting more bytes than it was given),
`ifoutoctets` grows by the frame length, the packet counter chosen by bit 0 of
the first frame byte grows by one while the other keeps its value, `link.xmit`
grows by one and `ifoutdiscards` keeps its value. -/
theorem low_level_ethernetif_output_success_counters (cfg : Config) (e : ethernetif)
    (st : Stats) (p : Pbuf) (stack : Nat → Nat) (stray : Nat) (w : Int)
    (hlen : (frameOf cfg p).length ≤ 1518)
    (hw : w ≤ ((frameOf cfg p).length : Int))
    (hok : (low_level_ethernetif_output cfg e st p stack stray w).err = err_t.ERR_OK) :
    (low_level_ethernetif_output cfg e st p stack stray w).stats.ifoutoctets
      = st.ifoutoctets + (frameOf cfg p).length ∧
    ((frameOf cfg p).headD stray % 2 = 1 →
      (low_level_ethernetif_output cfg e st p stack stray w).stats.ifoutnucastpkts
        = st.ifoutnucastpkts + 1 ∧
      (low_level_ethernetif_output cfg e st p stack stray w).stats.ifoutucastpkts
        = st.ifoutucastpkts) ∧
    ((frameOf cfg p).headD stray % 2 = 0 →
      (low_level_ethernetif_output cfg e st p stack stray w).stats.ifoutucastpkts
        = st.ifoutucastpkts + 1 ∧
      (low_level_ethernetif_output cfg e st p stack stray w).stats.ifoutnucastpkts
        = st.ifoutnucastpkts) ∧
    (low_level_ethernetif_output cfg e st p stack stray w).stats.link_xmit = st.link_xmit + 1 ∧
    (low_level_ethernetif_output cfg e st p stack stray w).stats.ifoutdiscards
      = st.ifoutdiscards := by
  have herr := low_level_ethernetif_output_err cfg e st p stack stray w hlen
  have hge : ¬ w < ((frameOf cfg p).length : Int) := by
    intro hlt
    rw [herr, if_pos hlt] at hok
    exact absurd hok (by decide)
  have hweq : w = ((frameOf cfg p).length : Int) := by omega
  have hcast : (w % 4294967296).toNat = (frameOf cfg p).length := by
    rw [hweq]; omega
  unfold frameOf at hlen hge hcast ⊢
  unfold low_level_ethernetif_output
  simp only [Pbuf.tot_len, ETH_BUF_SIZ]
  generalize drop_padding cfg p = q at hlen hge hcast ⊢
  rw [if_neg (by omega), if_neg hge, hcast]
  by_cases hb : q.payload.headD stray &&& 1 ≠ 0
  · have hb1 : q.payload.headD stray % 2 = 1 := (and_one_ne_zero _).1 hb
    rw [if_pos hb]
    refine ⟨rfl, fun _ => ⟨rfl, rfl⟩, fun h0 => ?_, rfl, rfl⟩
    omega
  · have hb0 : ¬ q.payload.headD stray % 2 = 1 := fun h => hb ((and_one_ne_zero _).2 h)
    rw [if_neg hb]
    refine ⟨rfl, fun h1 => absurd h1 hb0, fun _ => ⟨rfl, rfl⟩, rfl, rfl⟩

/-- C2, the scenario of the specification: a 1514-byte frame to
ff:ff:ff:ff:ff:ff that the system accepts whole adds 1514 to the byte counter
and one to the broadcast counter. -/
theorem low_level_ethernetif_output_broadcast_1514 :
    (low_level_ethernetif_output cfgNoPad eif0 stats0 bcast1514 zeroMem 0 1514).err
      = err_t.ERR_OK ∧
    (low_level_ethernetif_output cfgNoPad eif0 stats0 bcast1514 zeroMem 0 1514).stats.ifoutoctets
      = 0 + 1514 ∧
    (low_level_ethernetif_output cfgNoPad eif0 stats0 bcast1514 zeroMem 0
      1514).stats.ifoutnucastpkts = 0 + 1 ∧
    (low_level_ethernetif_output cfgNoPad eif0 stats0 bcast1514 zeroMem 0
      1514).stats.ifoutucastpkts = 0 := by
  have hlen : (frameOf cfgNoPad bcast1514).length = 1514 := by
    rw [frameOf, drop_padding_cfgNoPad, bcast1514]
    simp only [List.length_append, List.length_replicate]
  have hhead : (frameOf cfgNoPad bcast1514).headD 0 % 2 = 1 := by
    rw [frameOf, drop_padding_cfgNoPad, bcast1514]
    rfl
  have hok : (low_level_ethernetif_output cfgNoPad eif0 stats0 bcast1514 zeroMem 0 1514).err
      = err_t.ERR_OK := by
    rw [low_level_ethernetif_output_err _ _ _ _ _ _ _ (by omega), hlen]; rfl
  have h := low_level_ethernetif_output_success_counters cfgNoPad eif0 stats0 bcast1514
    zeroMem 0 1514 (by omega) (by omega) hok
  rw [hlen] at h
  exact ⟨hok, h.1, (h.2.1 hhead).1, (h.2.1 hhead).2⟩

/-- C3: for a frame of `n` bytes, `n` at most 1518, and any value `w` returned
by `sendto`, the call returns `ERR_OK` exactly when `w` is at least `n`; when
`w` is less it returns `ERR_IF`, `ifoutdiscards` goes up by one and every
other counter keeps its value. -/
theorem low_level_ethernetif_output_send_result (cfg : Config) (e : ethernetif)
    (st : Stats) (p : Pbuf) (stack : Nat → Nat) (stray : Nat) (w : Int)
    (hlen : (frameOf cfg p).length ≤ 1518) :
    ((low_level_ethernetif_output cfg e st p stack stray w).err = err_t.ERR_OK
      ↔ ((frameOf cfg p).length : Int) ≤ w) ∧
    (w < ((frameOf cfg p).length : Int) →
      (low_level_ethernetif_output cfg e st p stack stray w).err = err_t.ERR_IF ∧
      (low_level_ethernetif_output cfg e st p stack stray w).stats
        = { st with ifoutdiscards := st.ifoutdiscards + 1 }) := by
  have herr := low_level_ethernetif_output_err cfg e st p stack stray w hlen
  refine ⟨?_, ?_⟩
  · rw [herr]
    by_cases hw : w < ((frameOf cfg p).length : Int)
    · simp only [hw, if_true]
      constructor
      · intro h; exact absurd h (by decide)
      · intro h; omega
    · simp only [hw, if_false, true_iff]
      omega
  · intro hw
    refine ⟨by rw [herr, if_pos hw], ?_⟩
    unfold frameOf at hlen hw
    unfold low_level_ethernetif_output
    simp only [Pbuf.tot_len, ETH_BUF_SIZ]
    generalize drop_padding cfg p = q at hlen hw ⊢
    rw [if_neg (by omega), if_pos hw]

/-- C3 at a failed send: the 14-byte frame with `sendto` returning -1. -/
theorem low_level_ethernetif_output_send_failed :
    (low_level_ethernetif_output cfgNoPad eif0 stats0 pbuf14 zeroMem 0 (-1)).err
      = err_t.ERR_IF ∧
    (low_level_ethernetif_output cfgNoPad eif0 stats0 pbuf14 zeroMem 0 (-1)).stats
      = { stats0 with ifoutdiscards := stats0.ifoutdiscards + 1 } :=
  (low_level_ethernetif_output_send_result cfgNoPad eif0 stats0 pbuf14 zeroMem 0 (-1)
    (by decide)).2 (by decide)

theorem reclaim_drop_padding (cfg : Config) (p : Pbuf)
    (hpad : cfg.ETH_PAD_SIZE ≤ p.payload.length) (hu16 : p.payload.length < 65536) :
    reclaim_padding cfg (drop_padding cfg p) = p := by
  unfold reclaim_padding drop_padding
  by_cases h0 : cfg.ETH_PAD_SIZE = 0
  · simp [h0]
  · have hne : cfg.ETH_PAD_SIZE ≠ 0 := h0
    rw [if_pos hne, if_pos hne]
    unfold pbuf_remove_header
    rw [if_neg (by omega), if_neg h0, if_neg (by omega)]
    unfold pbuf_add_header
    have hlen : (p.hidden ++ List.take cfg.ETH_PAD_SIZE p.payload).length
        = p.hidden.length + cfg.ETH_PAD_SIZE := by
      rw [List.length_append, List.length_take, Nat.min_eq_left hpad]
    simp only [Pbuf.tot_len, List.length_drop, hlen]
    rw [if_neg (by omega), if_neg h0,
      if_neg (by rw [Nat.add_sub_cancel' hpad, Nat.mod_eq_of_lt hu16]; omega),
      if_neg (by omega)]
    have hsub : p.hidden.length + cfg.ETH_PAD_SIZE - cfg.ETH_PAD_SIZE = p.hidden.length := by
      omega
    rw [hsub, List.take_left, List.drop_left, List.take_append_drop]

/-- On the successful exit the caller's buffer is handed back as it came
(padding reclaimed), for a buffer that holds its padding word. -/
theorem low_level_ethernetif_output_ok_restores (cfg : Config) (e : ethernetif) (st : Stats)
    (p : Pbuf) (stack : Nat → Nat) (stray : Nat) (w : Int)
    (hpad : cfg.ETH_PAD_SIZE ≤ p.payload.length) (hu16 : p.payload.length < 65536)
    (hok : (low_level_ethernetif_output cfg e st p stack stray w).err = err_t.ERR_OK) :
    (low_level_ethernetif_output cfg e st p stack stray w).p = p := by
  have hrest := reclaim_drop_padding cfg p hpad hu16
  unfold low_level_ethernetif_output at hok ⊢
  simp only [Pbuf.tot_len, ETH_BUF_SIZ] at hok ⊢
  by_cases h1 : (drop_padding cfg p).payload.length > 1518
  · rw [if_pos h1] at hok
    exact absurd hok (by simp)
  · rw [if_neg h1] at hok ⊢
    by_cases h2 : w < ((drop_padding cfg p).payload.length : Int)
    · rw [if_pos h2] at hok
      exact absurd hok (by simp)
    · rw [if_neg h2]
      exact hrest

/-- On both failing exits the caller's buffer is handed back with its padding
word still stripped: it is shorter than it came by the padding size. -/
theorem low_level_ethernetif_output_fail_strips (cfg : Config) (e : ethernetif) (st : Stats)
    (p : Pbuf) (stack : Nat → Nat) (stray : Nat) (w : Int)
    (hne : cfg.ETH_PAD_SIZE ≠ 0) (hmax : cfg.ETH_PAD_SIZE ≤ 0xFFFF)
    (hpad : cfg.ETH_PAD_SIZE ≤ p.payload.length)
    (herr : (low_level_ethernetif_output cfg e st p stack stray w).err = err_t.ERR_IF) :
    (low_level_ethernetif_output cfg e st p stack stray w).p = pbuf_remove_header p cfg.ETH_PAD_SIZE ∧
    (low_level_ethernetif_output cfg e st p stack stray w).p.tot_len + cfg.ETH_PAD_SIZE
      = p.tot_len := by
  have hdrop : drop_padding cfg p = pbuf_remove_header p cfg.ETH_PAD_SIZE := by
    unfold drop_padding; rw [if_pos hne]
  have hlen : (pbuf_remove_header p cfg.ETH_PAD_SIZE).payload.length + cfg.ETH_PAD_SIZE
      = p.payload.length := by
    unfold pbuf_remove_header
    rw [if_neg (by omega), if_neg hne, if_neg (by omega)]
    simp only [List.length_drop]
    omega
  unfold low_level_ethernetif_output at herr ⊢
  simp only [Pbuf.tot_len, ETH_BUF_SIZ] at herr ⊢
  rw [hdrop] at herr ⊢
  by_cases h1 : (pbuf_remove_header p cfg.ETH_PAD_SIZE).payload.length > 1518
  · rw [if_pos h1]
    exact ⟨rfl, hlen⟩
  · rw [if_neg h1] at herr ⊢
    by_cases h2 : w < ((pbuf_remove_header p cfg.ETH_PAD_SIZE).payload.length : Int)
    · rw [if_pos h2]
      exact ⟨rfl, hlen⟩
    · rw [if_neg h2] at herr
      exact absurd herr (by simp)

/-- C9: with a two-byte padding word the failing exits do not restore the
caller's buffer.  A 16-byte buffer (padding and a 14-byte frame) whose send
fails comes back 14 bytes long with the padding hidden, and a 2002-byte
buffer refused as too large comes back 2000 bytes long; both calls return
`ERR_IF`. -/
theorem low_level_ethernetif_output_padding_not_restored :
    (low_level_ethernetif_output cfgPad2 eif0 stats0 padded16 zeroMem 0 (-1)).err
      = err_t.ERR_IF ∧
    (low_level_ethernetif_output cfgPad2 eif0 stats0 padded16 zeroMem 0 (-1)).p
      = { hidden := [0, 0], payload := frame14 } ∧
    (low_level_ethernetif_output cfgPad2 eif0 stats0 padded16 zeroMem 0 (-1)).p.tot_len = 14 ∧
    padded16.tot_len = 16 ∧
    (low_level_ethernetif_output cfgPad2 eif0 stats0 padded2002 zeroMem 0 2000).err
      = err_t.ERR_IF ∧
    (low_level_ethernetif_output cfgPad2 eif0 stats0 padded2002 zeroMem 0 2000).p.tot_len
      = 2000 ∧
    padded2002.tot_len = 2002 := by
  have hlen2002 : padded2002.payload.length = 2002 := by
    rw [padded2002]; simp only [List.length_replicate]
  have hbig : 1518 < (frameOf cfgPad2 padded2002).length := by
    have h : (frameOf cfgPad2 padded2002).length = padded2002.payload.length - 2 := by
      unfold frameOf drop_padding pbuf_remove_header
      simp only [cfgPad2]
      rw [if_pos (by decide), if_neg (by decide), if_neg (by decide), if_neg (by omega)]
      simp only [List.length_drop]
    omega
  have herr := (low_level_ethernetif_output_too_large cfgPad2 eif0 stats0 padded2002 zeroMem 0
    2000 hbig).1
  have hstrip := low_level_ethernetif_output_fail_strips cfgPad2 eif0 stats0 padded2002 zeroMem 0
    2000 (by decide) (by decide) (by rw [hlen2002]; decide) herr
  refine ⟨by decide, by decide, by decide, by decide, herr, ?_, hlen2002⟩
  have h2 := hstrip.2
  simp only [Pbuf.tot_len, cfgPad2] at h2 ⊢
  omega

/-! ## Receive path: properties -/

theorem map_range_scratch (b : List Nat) (stale : Nat → Nat) :
    (List.range b.length).map (scratch b stale) = b := by
  apply List.ext_getElem
  · simp
  · intro i h1 h2
    simp only [List.getElem_map, List.getElem_range, scratch]
    rw [List.getD_eq_getElem?_getD, List.getElem?_eq_getElem h2]
    rfl

theorem rx_len_eq (k : Nat) (r : Int) :
    (if k ≠ 0 then ((r % 65536).toNat + k) % 65536 else (r % 65536).toNat)
      = ((r + (k : Int)) % 65536).toNat := by
  by_cases hk : k = 0
  · subst hk
    simp
  · rw [if_pos hk]
    omega

theorem low_level_ethernetif_input_nopad_some (cfg : Config) (st : Stats) (r : Int)
    (buf junk : Nat → Nat) (stray : Nat) (hpad : cfg.ETH_PAD_SIZE = 0) :
    (low_level_ethernetif_input cfg st r buf (some junk) stray).p
      = some { hidden := [], payload := (List.range (r % 65536).toNat).map buf } ∧
    (low_level_ethernetif_input cfg st r buf (some junk) stray).stats.ifinoctets
      = st.ifinoctets + (r % 65536).toNat ∧
    (low_level_ethernetif_input cfg st r buf (some junk) stray).stats.ifindiscards
      = st.ifindiscards := by
  unfold low_level_ethernetif_input
  simp only [hpad, pbuf_alloc, Option.map_some', drop_padding, reclaim_padding, pbuf_take,
    Pbuf.tot_len, List.length_map, List.length_range, ne_eq, not_true_eq_false, if_false,
    Nat.lt_irrefl]
  generalize (r % 65536).toNat = n
  have hdrop : List.drop n (List.map junk (List.range n)) = [] :=
    List.drop_of_length_le (by simp)
  rw [hdrop, List.append_nil]
  have hlen : (List.map buf (List.range n)).length = n := by simp
  rw [hlen]
  split <;> exact ⟨rfl, rfl, rfl⟩

theorem pbuf_take_congr (p : Pbuf) (buf buf' : Nat → Nat) (len : Nat)
    (h : ∀ i, i < len → buf i = buf' i) :
    pbuf_take p buf len = pbuf_take p buf' len := by
  have hmap : (List.range len).map buf = (List.range len).map buf' :=
    List.map_congr_left (fun i hi => h i (List.mem_range.1 hi))
  unfold pbuf_take
  rw [hmap]

theorem low_level_ethernetif_input_congr (cfg : Config) (st : Stats) (r : Int)
    (buf buf' : Nat → Nat) (pool : Option (Nat → Nat)) (stray : Nat)
    (h : ∀ i, i < ((r + (cfg.ETH_PAD_SIZE : Int)) % 65536).toNat → buf i = buf' i) :
    low_level_ethernetif_input cfg st r buf pool stray
      = low_level_ethernetif_input cfg st r buf' pool stray := by
  unfold low_level_ethernetif_input
  simp only [rx_len_eq]
  cases pool with
  | none => rfl
  | some junk =>
    simp only [pbuf_alloc, Option.map_some']
    rw [pbuf_take_congr _ buf buf' _ h]

theorem getD_map_range (f : Nat → Nat) (n i d : Nat) (h : i < n) :
    ((List.range n).map f).getD i d = f i := by
  rw [List.getD_eq_getElem?_getD, List.getElem?_map, List.getElem?_range h]
  rfl

theorem low_level_ethernetif_input_overread (cfg : Config) (st : Stats) (junk : Nat → Nat)
    (stray : Nat) (hpad : cfg.ETH_PAD_SIZE = 0) :
    low_level_ethernetif_input cfg st (-1) zeroMem (some junk) stray
      ≠ low_level_ethernetif_input cfg st (-1) beyondMem (some junk) stray := by
  intro heq
  have h1 := (low_level_ethernetif_input_nopad_some cfg st (-1) zeroMem junk stray hpad).1
  have h2 := (low_level_ethernetif_input_nopad_some cfg st (-1) beyondMem junk stray hpad).1
  have hbig : 1518 < ((-1 : Int) % 65536).toNat := by decide
  generalize ((-1 : Int) % 65536).toNat = n at h1 h2 hbig
  rw [heq, h2] at h1
  have hpay : (List.range n).map beyondMem = (List.range n).map zeroMem :=
    congrArg Pbuf.payload (Option.some.inj h1)
  have hget := congrArg (fun l => l.getD 1518 0) hpay
  simp only at hget
  rw [getD_map_range _ _ _ _ hbig, getD_map_range _ _ _ _ hbig] at hget
  exact absurd hget (by decide)

theorem low_level_ethernetif_input_calls (cfg : Config) (st : Stats) (r : Int)
    (buf : Nat → Nat) (pool : Option (Nat → Nat)) (stray : Nat) :
    (low_level_ethernetif_input cfg st r buf pool stray).calls
      = if pool.isSome then
          [Call.pbuf_alloc ((r + (cfg.ETH_PAD_SIZE : Int)) % 65536).toNat,
           Call.pbuf_take ((r + (cfg.ETH_PAD_SIZE : Int)) % 65536).toNat]
        else [Call.pbuf_alloc ((r + (cfg.ETH_PAD_SIZE : Int)) % 65536).toNat] := by
  unfold low_level_ethernetif_input
  simp only [rx_len_eq]
  cases pool with
  | none => rfl
  | some junk => rfl

/-- Without padding, the buffer returned for the bytes `b` that `recvfrom`
delivered (at most 1518 of them) carries exactly `b`. -/
theorem low_level_ethernetif_input_frame_nopad (cfg : Config) (st : Stats) (b : List Nat)
    (stale junk : Nat → Nat) (stray : Nat)
    (hpad : cfg.ETH_PAD_SIZE = 0) (hlen : b.length ≤ 1518) :
    (low_level_ethernetif_input cfg st (b.length : Int) (scratch b stale) (some junk) stray).p
      = some { hidden := [], payload := b } ∧
    frameOf cfg { hidden := [], payload := b } = b := by
  have hl : ((b.length : Int) % 65536).toNat = b.length := by omega
  constructor
  · unfold low_level_ethernetif_input
    simp only [hpad, hl, pbuf_alloc, Option.map_some', drop_padding, reclaim_padding,
      pbuf_take, Pbuf.tot_len, List.length_map, List.length_range, ne_eq, not_true_eq_false,
      if_false, Nat.lt_irrefl, map_range_scratch]
    rw [List.drop_of_length_le (by simp), List.append_nil]
  · simp [frameOf, drop_padding, hpad]

/-- With padding, the copy into the buffer is refused (it asks for the
padding size more than the buffer holds once the padding is dropped): the
buffer returned is the allocation as the pool handed it out. -/
theorem low_level_ethernetif_input_frame_padded (cfg : Config) (st : Stats) (b : List Nat)
    (stale junk : Nat → Nat) (stray : Nat)
    (hne : cfg.ETH_PAD_SIZE ≠ 0) (hlen : b.length + cfg.ETH_PAD_SIZE < 65536) :
    (low_level_ethernetif_input cfg st (b.length : Int) (scratch b stale) (some junk) stray).p
      = some { hidden := [],
               payload := (List.range (b.length + cfg.ETH_PAD_SIZE)).map junk } := by
  have hl : (((b.length : Int) + (cfg.ETH_PAD_SIZE : Int)) % 65536).toNat
      = b.length + cfg.ETH_PAD_SIZE := by omega
  have hrest := reclaim_drop_padding cfg
    { hidden := [], payload := (List.range (b.length + cfg.ETH_PAD_SIZE)).map junk }
    (by simp) (by simpa using hlen)
  have hdl : (drop_padding cfg
      { hidden := [], payload := (List.range (b.length + cfg.ETH_PAD_SIZE)).map junk }
        ).payload.length = b.length := by
    unfold drop_padding pbuf_remove_header
    rw [if_pos hne, if_neg (by omega), if_neg hne, if_neg (by simp)]
    simp
  unfold low_level_ethernetif_input
  simp only [rx_len_eq, hl, pbuf_alloc, Option.map_some']
  unfold pbuf_take
  simp only [Pbuf.tot_len, hdl]
  rw [if_pos (by omega)]
  simp only [hrest]

/-- C4: with a two-byte padding word the frame returned is not the bytes
received.  For the 14-byte frame `frame14` delivered by `recvfrom` and a
successful allocation from zeroed pool memory, the buffer returned holds 16
zero bytes, so the frame left after removing the padding is 14 zero bytes. -/
theorem low_level_ethernetif_input_padded_frame_lost :
    (low_level_ethernetif_input cfgPad2 stats0 14 (scratch frame14 zeroMem) (some zeroMem) 0).p
      = some { hidden := [], payload := List.replicate 16 0 } ∧
    frameOf cfgPad2 { hidden := [], payload := List.replicate 16 0 } = List.replicate 14 0 ∧
    List.replicate 14 0 ≠ frame14 := by
  refine ⟨by decide, by decide, by decide⟩

/-- C5: when the allocation fails, `low_level_ethernetif_input` returns NULL,
`ifindiscards` goes up by one and every other counter keeps its value, and
`ethernetif_input` (so `ethernetif_poll`) never calls the input callback nor
releases anything. -/
theorem low_level_ethernetif_input_alloc_fails (cfg : Config) (st : Stats) (r : Int)
    (buf : Nat → Nat) (stray : Nat) (input : Pbuf → err_t) :
    pbuf_alloc none ((r + (cfg.ETH_PAD_SIZE : Int)) % 65536).toNat = none ∧
    (low_level_ethernetif_input cfg st r buf none stray).p = none ∧
    (low_level_ethernetif_input cfg st r buf none stray).stats
      = { st with ifindiscards := st.ifindiscards + 1 } ∧
    (ethernetif_input cfg st r buf none stray input).1
      = { st with ifindiscards := st.ifindiscards + 1 } ∧
    (ethernetif_input cfg st r buf none stray input).2.filter isDelivery = [] ∧
    (ethernetif_poll cfg st r buf none stray input).2.filter isDelivery = [] :=
  ⟨rfl, rfl, rfl, rfl, rfl, rfl⟩

/-- C6: when `low_level_ethernetif_input` yields a frame, the reception step
calls the input callback exactly once, with that frame; it releases the frame
once, after the callback, when the callback answers anything but `ERR_OK`, and
does not release it when the callback answers `ERR_OK`.  The step always
returns (it is a total function with no error value), `ethernetif_poll` is
the same step, and the counters are those `low_level_ethernetif_input`
left. -/
theorem ethernetif_input_delivers_once (cfg : Config) (st : Stats) (r : Int)
    (buf : Nat → Nat) (pool : Option (Nat → Nat)) (stray : Nat) (input : Pbuf → err_t)
    (q : Pbuf) (hq : (low_level_ethernetif_input cfg st r buf pool stray).p = some q) :
    (ethernetif_input cfg st r buf pool stray input).2.filter isDelivery
      = (if input q = err_t.ERR_OK then [Call.input q]
         else [Call.input q, Call.pbuf_free q]) ∧
    ethernetif_poll cfg st r buf pool stray input
      = ethernetif_input cfg st r buf pool stray input ∧
    (ethernetif_input cfg st r buf pool stray input).1
      = (low_level_ethernetif_input cfg st r buf pool stray).stats := by
  have hcalls := low_level_ethernetif_input_calls cfg st r buf pool stray
  have hfil : (low_level_ethernetif_input cfg st r buf pool stray).calls.filter isDelivery
      = [] := by
    rw [hcalls]
    cases pool with
    | none => rfl
    | some junk => rfl
  refine ⟨?_, rfl, ?_⟩
  · unfold ethernetif_input
    simp only [hq]
    by_cases hin : input q = err_t.ERR_OK
    · rw [if_neg (not_not.2 hin), if_pos hin]
      simp only [List.filter_append, hfil, List.nil_append]
      rfl
    · rw [if_pos hin, if_neg hin]
      simp only [List.filter_append, hfil, List.nil_append]
      rfl
  · unfold ethernetif_input
    simp only [hq]
    by_cases hin : input q = err_t.ERR_OK
    · rw [if_neg (not_not.2 hin)]
    · rw [if_pos hin]

/-- C6, the scenario of the specification: 64 received unicast bytes lead to
exactly one call of the input callback, with the 64-byte frame, and no
release; the unicast counter stands at one. -/
theorem ethernetif_input_unicast64 :
    (low_level_ethernetif_input cfgNoPad stats0 64 (scratch unicast64 zeroMem) (some zeroMem)
      0).p = some { hidden := [], payload := unicast64 } ∧
    (ethernetif_input cfgNoPad stats0 64 (scratch unicast64 zeroMem) (some zeroMem) 0
      acceptAll).2.filter isDelivery = [Call.input { hidden := [], payload := unicast64 }] ∧
    (ethernetif_input cfgNoPad stats0 64 (scratch unicast64 zeroMem) (some zeroMem) 0
      acceptAll).1.ifinucastpkts = 1 := by
  have hq : (low_level_ethernetif_input cfgNoPad stats0 64 (scratch unicast64 zeroMem)
      (some zeroMem) 0).p = some { hidden := [], payload := unicast64 } := by decide
  have h := ethernetif_input_delivers_once cfgNoPad stats0 64 (scratch unicast64 zeroMem)
    (some zeroMem) 0 acceptAll { hidden := [], payload := unicast64 } hq
  refine ⟨hq, h.1, ?_⟩
  rw [h.2.2]
  decide

/-- C10 as stated fails on the code.  With a two-byte padding word and 14
bytes received, the size asked of the allocator and the count handed to
`pbuf_take` is 16, but the copy is refused (`ERR_MEM`, buffer untouched) and
the result is the same whatever the scratch buffer holds: no byte is copied,
not 16.  And with a two-byte padding word and `r = -1` the count is 1: one
byte is copied, from inside the scratch buffer, although `0 ≤ r` fails, so
the stated precondition is not the only case in which the copy stays
within the buffer. -/
theorem low_level_ethernetif_input_copy_count_refuted :
    (low_level_ethernetif_input cfgPad2 stats0 14 (scratch frame14 zeroMem) (some zeroMem)
      0).calls = [Call.pbuf_alloc 16, Call.pbuf_take 16] ∧
    pbuf_take (drop_padding cfgPad2 { hidden := [], payload := List.replicate 16 0 })
      (scratch frame14 zeroMem) 16
        = (err_t.ERR_MEM, drop_padding cfgPad2 { hidden := [], payload := List.replicate 16 0 }) ∧
    low_level_ethernetif_input cfgPad2 stats0 14 (scratch frame14 zeroMem) (some zeroMem) 0
      = low_level_ethernetif_input cfgPad2 stats0 14 sevenMem (some zeroMem) 0 ∧
    (low_level_ethernetif_input cfgPad2 stats0 (-1) sevenMem (some zeroMem) 0).calls
      = [Call.pbuf_alloc 1, Call.pbuf_take 1] ∧
    (low_level_ethernetif_input cfgPad2 stats0 (-1) sevenMem (some zeroMem) 0).p
      = some { hidden := [], payload := [7] } ∧
    ¬ ((((-1 : Int) + (cfgPad2.ETH_PAD_SIZE : Int)) % 65536).toNat ≤ ETH_BUF_SIZ →
        (0 : Int) ≤ -1 ∧ (-1 : Int) + (cfgPad2.ETH_PAD_SIZE : Int) ≤ 1518) := by
  refine ⟨by decide, by decide, by decide, by decide, by decide, by decide⟩

/-- C10 as the code has it.  The value `r` of `recvfrom` goes unchecked into
a 16-bit length, so for every `r` the size asked of the allocator (and the
count handed to `pbuf_take`) is `(r + ETH_PAD_SIZE) mod 2^16`.  Without
padding, when the allocation succeeds, exactly that many bytes are copied out
of the scratch memory: the buffer returned holds the bytes at offsets `0` to
the count, and as many octets are counted; at `r = -1` that is 65535 bytes,
more than the scratch buffer, and nothing is reported or discarded.  Whenever
`0 ≤ r` and `r + ETH_PAD_SIZE ≤ 1518` the count is `r + ETH_PAD_SIZE` and
the copy stays within the 1518 bytes of the scratch buffer: the outcome
depends on no byte behind them.  Without padding, for `r` in the range of
`recvfrom` (`-1 ≤ r ≤ 1518`) and a successful allocation, the copy stays
within the scratch buffer only if `0 ≤ r`. -/
theorem low_level_ethernetif_input_length (cfg : Config) (st : Stats) (r : Int)
    (buf : Nat → Nat) (pool : Option (Nat → Nat)) (stray : Nat) :
    (low_level_ethernetif_input cfg st r buf pool stray).calls
      = (if pool.isSome then
          [Call.pbuf_alloc ((r + (cfg.ETH_PAD_SIZE : Int)) % 65536).toNat,
           Call.pbuf_take ((r + (cfg.ETH_PAD_SIZE : Int)) % 65536).toNat]
        else [Call.pbuf_alloc ((r + (cfg.ETH_PAD_SIZE : Int)) % 65536).toNat]) ∧
    (cfg.ETH_PAD_SIZE = 0 → pool.isSome →
      (low_level_ethernetif_input cfg st r buf pool stray).p
        = some { hidden := [],
                 payload := (List.range ((r + (cfg.ETH_PAD_SIZE : Int)) % 65536).toNat).map
                   buf } ∧
      (low_level_ethernetif_input cfg st r buf pool stray).stats.ifinoctets
        = st.ifinoctets + ((r + (cfg.ETH_PAD_SIZE : Int)) % 65536).toNat ∧
      (low_level_ethernetif_input cfg st r buf pool stray).stats.ifindiscards
        = st.ifindiscards) ∧
    (cfg.ETH_PAD_SIZE = 0 → r = -1 →
      ((r + (cfg.ETH_PAD_SIZE : Int)) % 65536).toNat = 65535 ∧
      ETH_BUF_SIZ < ((r + (cfg.ETH_PAD_SIZE : Int)) % 65536).toNat) ∧
    (0 ≤ r → r + (cfg.ETH_PAD_SIZE : Int) ≤ 1518 →
      (((r + (cfg.ETH_PAD_SIZE : Int)) % 65536).toNat : Int) = r + (cfg.ETH_PAD_SIZE : Int) ∧
      ((r + (cfg.ETH_PAD_SIZE : Int)) % 65536).toNat ≤ ETH_BUF_SIZ ∧
      ∀ buf' : Nat → Nat, (∀ i, i < ETH_BUF_SIZ → buf i = buf' i) →
        low_level_ethernetif_input cfg st r buf pool stray
          = low_level_ethernetif_input cfg st r buf' pool stray) ∧
    (cfg.ETH_PAD_SIZE = 0 → -1 ≤ r → r ≤ 1518 → pool.isSome →
      ((∀ b1 b2 : Nat → Nat, (∀ i, i < ETH_BUF_SIZ → b1 i = b2 i) →
          low_level_ethernetif_input cfg st r b1 pool stray
            = low_level_ethernetif_input cfg st r b2 pool stray) ↔ 0 ≤ r)) := by
  refine ⟨low_level_ethernetif_input_calls cfg st r buf pool stray, ?_, ?_, ?_, ?_⟩
  · intro hpad hsome
    cases pool with
    | none => exact absurd hsome (by simp)
    | some junk =>
      have h := low_level_ethernetif_input_nopad_some cfg st r buf junk stray hpad
      have hN : ((r + (cfg.ETH_PAD_SIZE : Int)) % 65536).toNat = (r % 65536).toNat := by
        rw [hpad]; simp
      rw [hN]
      exact h
  · intro hpad hr
    subst hr
    have hl : (((-1 : Int) + ((0 : Nat) : Int)) % 65536).toNat = 65535 := by decide
    rw [hpad, hl]
    exact ⟨rfl, by decide⟩
  · intro h0 h1
    refine ⟨by omega, by unfold ETH_BUF_SIZ; omega, ?_⟩
    intro buf' hagree
    apply low_level_ethernetif_input_congr
    intro i hi
    apply hagree
    unfold ETH_BUF_SIZ
    omega
  · intro hpad hlo hhi hsome
    constructor
    · intro hall
      by_contra hneg
      have hr : r = -1 := by omega
      subst hr
      cases pool with
      | none => exact absurd hsome (by simp)
      | some junk =>
        refine low_level_ethernetif_input_overread cfg st junk stray hpad
          (hall zeroMem beyondMem ?_)
        intro i hi
        simp [zeroMem, beyondMem, hi]
    · intro h0 b1 b2 hagree
      apply low_level_ethernetif_input_congr
      intro i hi
      apply hagree
      rw [hpad] at hi
      unfold ETH_BUF_SIZ
      omega

/-- C10 as the code has it, at a failed receive without padding: with
`r = -1` and a successful allocation the buffer returned holds 65535 bytes
read from the scratch memory, 65535 octets are counted, and the outcome
depends on bytes behind the scratch buffer. -/
theorem low_level_ethernetif_input_failed_receive :
    (low_level_ethernetif_input cfgNoPad stats0 (-1) zeroMem (some zeroMem) 0).p
      = some { hidden := [], payload := (List.range 65535).map zeroMem } ∧
    (low_level_ethernetif_input cfgNoPad stats0 (-1) zeroMem (some zeroMem) 0).stats.ifinoctets
      = stats0.ifinoctets + 65535 ∧
    ¬ (∀ b1 b2 : Nat → Nat, (∀ i, i < ETH_BUF_SIZ → b1 i = b2 i) →
        low_level_ethernetif_input cfgNoPad stats0 (-1) b1 (some zeroMem) 0
          = low_level_ethernetif_input cfgNoPad stats0 (-1) b2 (some zeroMem) 0) := by
  have h := low_level_ethernetif_input_length cfgNoPad stats0 (-1) zeroMem (some zeroMem) 0
  have hN : (((-1 : Int) + (cfgNoPad.ETH_PAD_SIZE : Int)) % 65536).toNat = 65535 := by decide
  have hB := h.2.1 rfl rfl
  rw [hN] at hB
  refine ⟨hB.1, hB.2.1, ?_⟩
  intro hall
  have h0 := (h.2.2.2.2 rfl (by decide) (by decide) rfl).1 hall
  exact absurd h0 (by decide)

/-! ## Bring-up: properties -/

/-- C7: when `ethernetif_init` returns `ERR_OK`, whatever the interface record
held before, the record has the hardware address the system reported, address
length 6 and MTU 1500, the adapter record caches that same address and has the
reported interface index in its destination descriptor, and the link-layer
output hook is `low_level_ethernetif_output`. -/
theorem ethernetif_init_ok (cfg : Config) (os : OsEnv) (n n' : netif) (spawned : Bool)
    (h : ethernetif_init cfg os n = Outcome.ret (err_t.ERR_OK, n', spawned)) :
    n'.hwaddr = macOf os.sa_data ∧ n'.hwaddr_len = 6 ∧ n'.mtu = 1500 ∧
    (∃ e, n'.state = some e ∧ e.ethaddr = macOf os.sa_data ∧ e.ethaddr = n'.hwaddr ∧
      e.socket_address.sll_ifindex = os.ifr_ifindex) ∧
    n'.linkoutput = some Hook.low_level_ethernetif_output := by
  unfold ethernetif_init at h
  cases hm : os.malloc_block with
  | none =>
    rw [hm] at h
    simp at h
  | some e0 =>
    rw [hm] at h
    simp only [low_level_ethernetif_init, recv_endpoint_config] at h
    split_ifs at h <;> simp at h
    all_goals
      obtain ⟨h1, _⟩ := h
      subst h1
      simp [macOf, ETHARP_HWADDR_LEN]

/-- C7, the scenario of the specification: interface "eth1" with hardware
address aa:bb:cc:dd:ee:ff and index 3.  Initialisation returns `ERR_OK`; the
interface record then holds that address and MTU 1500. -/
theorem ethernetif_init_eth1 :
    (∃ n', ethernetif_init cfgNoPad osEth1 netif0 = Outcome.ret (err_t.ERR_OK, n', false) ∧
      n'.hwaddr = ⟨0xaa, 0xbb, 0xcc, 0xdd, 0xee, 0xff⟩ ∧ n'.hwaddr_len = 6 ∧ n'.mtu = 1500 ∧
      (∃ e, n'.state = some e ∧ e.ethaddr = ⟨0xaa, 0xbb, 0xcc, 0xdd, 0xee, 0xff⟩ ∧
        e.ethaddr = n'.hwaddr ∧ e.socket_address.sll_ifindex = 3) ∧
      n'.linkoutput = some Hook.low_level_ethernetif_output) := by
  have hret : ∃ n', ethernetif_init cfgNoPad osEth1 netif0
      = Outcome.ret (err_t.ERR_OK, n', false) := ⟨_, rfl⟩
  obtain ⟨n', hn⟩ := hret
  exact ⟨n', hn, ethernetif_init_ok cfgNoPad osEth1 netif0 n' false hn⟩

theorem recv_endpoint_config_exit (os : OsEnv) (e : ethernetif)
    (h : os.socket_recv = -1 ∨ os.setsockopt_reuseaddr = -1 ∨ os.setsockopt_bindtodevice = -1) :
    recv_endpoint_config os e = Outcome.exit 1 := by
  simp only [recv_endpoint_config]
  by_cases h1 : os.socket_recv = -1
  · rw [if_pos h1]
  · rw [if_neg h1]
    by_cases h2 : os.setsockopt_reuseaddr = -1
    · rw [if_pos h2]
    · rw [if_neg h2]
      have h3 : os.setsockopt_bindtodevice = -1 := by omega
      rw [if_pos h3]

theorem recv_endpoint_config_ret (os : OsEnv) (e : ethernetif)
    (h1 : os.socket_recv ≠ -1) (h2 : os.setsockopt_reuseaddr ≠ -1)
    (h3 : os.setsockopt_bindtodevice ≠ -1) :
    ∃ e', recv_endpoint_config os e = Outcome.ret e' := by
  simp only [recv_endpoint_config]
  rw [if_neg h1, if_neg h2, if_neg h3]
  exact ⟨_, rfl⟩

theorem low_level_ethernetif_init_exit (cfg : Config) (os : OsEnv) (n : netif) (e : ethernetif)
    (hs : n.state = some e)
    (h : os.socket_send = -1 ∨ os.ioctl_ifindex < 0 ∨ os.ioctl_hwaddr < 0) :
    low_level_ethernetif_init cfg os n = Outcome.exit 1 := by
  simp only [low_level_ethernetif_init, hs]
  by_cases h1 : os.socket_send = -1
  · rw [if_pos h1]
  · rw [if_neg h1]
    by_cases h2 : os.ioctl_ifindex < 0
    · rw [if_pos h2]
    · rw [if_neg h2]
      have h3 : os.ioctl_hwaddr < 0 := by omega
      rw [if_pos h3]

theorem low_level_ethernetif_init_thread (cfg : Config) (os : OsEnv) (n : netif)
    (e : ethernetif) (o : Outcome (netif × Bool)) (hs : n.state = some e)
    (h1 : os.socket_send ≠ -1) (h2 : ¬ os.ioctl_ifindex < 0) (h3 : ¬ os.ioctl_hwaddr < 0)
    (hsys : cfg.NO_SYS = false) (ho : low_level_ethernetif_init cfg os n = o) :
    ∃ n' e', o = Outcome.ret (n', true) ∧ n'.state = some e' := by
  subst ho
  simp only [low_level_ethernetif_init, hs]
  rw [if_neg h1, if_neg h2, if_neg h3, if_pos hsys]
  exact ⟨_, _, rfl, rfl⟩

theorem low_level_ethernetif_init_polled_exit (cfg : Config) (os : OsEnv) (n : netif)
    (e : ethernetif) (hs : n.state = some e)
    (h1 : os.socket_send ≠ -1) (h2 : ¬ os.ioctl_ifindex < 0) (h3 : ¬ os.ioctl_hwaddr < 0)
    (hsys : cfg.NO_SYS = true)
    (h : os.socket_recv = -1 ∨ os.setsockopt_reuseaddr = -1 ∨ os.setsockopt_bindtodevice = -1) :
    low_level_ethernetif_init cfg os n = Outcome.exit 1 := by
  simp only [low_level_ethernetif_init, hs]
  rw [if_neg h1, if_neg h2, if_neg h3, if_neg (by simp [hsys]),
    recv_endpoint_config_exit os _ h]

theorem low_level_ethernetif_init_polled_ret (cfg : Config) (os : OsEnv) (n : netif)
    (e : ethernetif) (o : Outcome (netif × Bool)) (hs : n.state = some e)
    (h1 : os.socket_send ≠ -1) (h2 : ¬ os.ioctl_ifindex < 0) (h3 : ¬ os.ioctl_hwaddr < 0)
    (hsys : cfg.NO_SYS = true)
    (h4 : os.socket_recv ≠ -1) (h5 : os.setsockopt_reuseaddr ≠ -1)
    (h6 : os.setsockopt_bindtodevice ≠ -1) (ho : low_level_ethernetif_init cfg os n = o) :
    ∃ n', o = Outcome.ret (n', false) := by
  subst ho
  simp only [low_level_ethernetif_init, hs]
  rw [if_neg h1, if_neg h2, if_neg h3, if_neg (by simp [hsys])]
  obtain ⟨e', he'⟩ := recv_endpoint_config_ret os
    { ethaddr := ⟨os.sa_data.getD 0 0, os.sa_data.getD 1 0, os.sa_data.getD 2 0,
                  os.sa_data.getD 3 0, os.sa_data.getD 4 0, os.sa_data.getD 5 0⟩,
      ifName := DEFAULT_IF, send_sockfd := os.socket_send, if_idx_ifindex := os.ifr_ifindex,
      if_mac_sa_data := os.sa_data,
      socket_address := { sll_ifindex := os.ifr_ifindex, sll_addr := e.socket_address.sll_addr },
      recv_sockfd := e.recv_sockfd, ifopts_flags := e.ifopts_flags, sockopt := e.sockopt }
    h4 h5 h6
  rw [he']
  exact ⟨_, rfl⟩

theorem ethernetif_thread_exit (os : OsEnv) (n : netif) (e : ethernetif)
    (hs : n.state = some e)
    (h : os.socket_recv = -1 ∨ os.setsockopt_reuseaddr = -1 ∨ os.setsockopt_bindtodevice = -1) :
    ethernetif_thread os n = Outcome.exit 1 := by
  simp only [ethernetif_thread, hs]
  rw [recv_endpoint_config_exit os _ h]

theorem ethernetif_thread_ret (os : OsEnv) (n : netif) (e : ethernetif)
    (hs : n.state = some e)
    (h4 : os.socket_recv ≠ -1) (h5 : os.setsockopt_reuseaddr ≠ -1)
    (h6 : os.setsockopt_bindtodevice ≠ -1) :
    ∃ n', ethernetif_thread os n = Outcome.ret n' := by
  simp only [ethernetif_thread, hs]
  obtain ⟨e', he'⟩ := recv_endpoint_config_ret os e h4 h5 h6
  rw [he']
  exact ⟨_, rfl⟩

theorem bring_up_exits (cfg : Config) (os : OsEnv) (n : netif)
    (hm : os.malloc_block ≠ none) (hx : exits os) :
    bring_up cfg os n = BringUp.terminated 1 := by
  unfold exits at hx
  cases hmb : os.malloc_block with
  | none => exact absurd hmb hm
  | some e0 =>
    simp only [bring_up, ethernetif_init, hmb]
    by_cases hpre : os.socket_send = -1 ∨ os.ioctl_ifindex < 0 ∨ os.ioctl_hwaddr < 0
    · rw [low_level_ethernetif_init_exit cfg os _ _ rfl hpre]
    · have hrx : os.socket_recv = -1 ∨ os.setsockopt_reuseaddr = -1 ∨
          os.setsockopt_bindtodevice = -1 := by omega
      cases hsys : cfg.NO_SYS with
      | true =>
        rw [low_level_ethernetif_init_polled_exit cfg os _ _ rfl (by omega) (by omega)
          (by omega) hsys hrx]
      | false =>
        generalize ho : low_level_ethernetif_init cfg os _ = o
        obtain ⟨n', e', hn', hs'⟩ := low_level_ethernetif_init_thread cfg os _ _ o (by rfl)
          (by omega) (by omega) (by omega) hsys ho
        subst hn'
        simp only [ne_eq, not_true_eq_false, if_false, if_true]
        rw [ethernetif_thread_exit os n' e' hs' hrx]

theorem bring_up_listens (cfg : Config) (os : OsEnv) (n : netif)
    (hm : os.malloc_block ≠ none) (hx : ¬ exits os) :
    (bring_up cfg os n).isListening = true := by
  unfold exits at hx
  cases hmb : os.malloc_block with
  | none => exact absurd hmb hm
  | some e0 =>
    simp only [bring_up, ethernetif_init, hmb]
    generalize ho : low_level_ethernetif_init cfg os _ = o
    cases hsys : cfg.NO_SYS with
    | true =>
      obtain ⟨n', hn'⟩ := low_level_ethernetif_init_polled_ret cfg os _ _ o (by rfl)
        (by omega) (by omega) (by omega) hsys (by omega) (by omega) (by omega) ho
      subst hn'
      rfl
    | false =>
      obtain ⟨n', e', hn', hs'⟩ := low_level_ethernetif_init_thread cfg os _ _ o (by rfl)
        (by omega) (by omega) (by omega) hsys ho
      subst hn'
      simp only [ne_eq, not_true_eq_false, if_false, if_true]
      obtain ⟨n2, hn2⟩ := ethernetif_thread_ret os n' e' hs' (by omega) (by omega) (by omega)
      rw [hn2]
      rfl

/-- C8 as stated fails on the code: with both queries on the interface flags
(the promiscuous-mode get and set) failing and every other call succeeding,
bring-up does not terminate the process and reaches the listening state, in
the polled build and in the threaded build. -/
theorem bring_up_promisc_failure_not_fatal :
    failed osPromiscFails.ioctl_getflags ∧ failed osPromiscFails.ioctl_setflags ∧
    (bring_up cfgNoPad osPromiscFails netif0).isListening = true ∧
    (bring_up cfgThread osPromiscFails netif0).isListening = true ∧
    ¬ ((failed osPromiscFails.socket_send ∨ failed osPromiscFails.ioctl_ifindex ∨
        failed osPromiscFails.ioctl_hwaddr ∨ failed osPromiscFails.socket_recv ∨
        failed osPromiscFails.ioctl_getflags ∨ failed osPromiscFails.ioctl_setflags ∨
        failed osPromiscFails.setsockopt_reuseaddr ∨
        failed osPromiscFails.setsockopt_bindtodevice) →
      ∃ c, bring_up cfgNoPad osPromiscFails netif0 = BringUp.terminated c) := by
  refine ⟨by decide, by decide, by decide, by decide, ?_⟩
  intro h
  obtain ⟨c, hc⟩ := h (Or.inr (Or.inr (Or.inr (Or.inr (Or.inl (by decide))))))
  have hl : (bring_up cfgNoPad osPromiscFails netif0).isListening = true := by decide
  rw [hc] at hl
  exact absurd hl (by simp [BringUp.isListening])

/-- C8 as the code has it: once the adapter record is allocated, the process
is terminated (exit status 1) whenever one of the six examined calls fails:
transmit socket creation, interface-index query, hardware-address query,
receive socket creation, the address-reuse option, the bind-to-device option.
The listening state is reached exactly when none of the examined calls made
the code exit, so only if each of the six succeeded; the answers to the two
queries on the interface flags play no part. -/
theorem bring_up_examined_calls (cfg : Config) (os : OsEnv) (n : netif)
    (hm : os.malloc_block ≠ none) :
    ((failed os.socket_send ∨ failed os.ioctl_ifindex ∨ failed os.ioctl_hwaddr ∨
        failed os.socket_recv ∨ failed os.setsockopt_reuseaddr ∨
        failed os.setsockopt_bindtodevice) →
      bring_up cfg os n = BringUp.terminated 1) ∧
    ((bring_up cfg os n).isListening = true ↔ ¬ exits os) ∧
    ((bring_up cfg os n).isListening = true →
      ¬ failed os.socket_send ∧ ¬ failed os.ioctl_ifindex ∧ ¬ failed os.ioctl_hwaddr ∧
      ¬ failed os.socket_recv ∧ ¬ failed os.setsockopt_reuseaddr ∧
      ¬ failed os.setsockopt_bindtodevice) ∧
    (∀ a b : Int,
      (bring_up cfg { os with ioctl_getflags := a, ioctl_setflags := b } n).isListening
        = (bring_up cfg os n).isListening) := by
  have hiff : (bring_up cfg os n).isListening = true ↔ ¬ exits os := by
    constructor
    · intro hl hx
      rw [bring_up_exits cfg os n hm hx] at hl
      exact absurd hl (by simp [BringUp.isListening])
    · exact bring_up_listens cfg os n hm
  refine ⟨?_, hiff, ?_, ?_⟩
  · intro hf
    apply bring_up_exits cfg os n hm
    unfold failed at hf
    unfold exits
    omega
  · intro hl
    have hx := hiff.1 hl
    unfold exits at hx
    unfold failed
    omega
  · intro a b
    by_cases hx : exits os
    · rw [bring_up_exits cfg os n hm hx,
        bring_up_exits cfg { os with ioctl_getflags := a, ioctl_setflags := b } n hm hx]
    · rw [bring_up_listens cfg os n hm hx,
        bring_up_listens cfg { os with ioctl_getflags := a, ioctl_setflags := b } n hm hx]

/-- C8 as the code has it, at a failing bind: every call succeeds except the
bind-to-device option, and the process is terminated with status 1. -/
theorem bring_up_bind_fails :
    bring_up cfgNoPad osBindFails netif0 = BringUp.terminated 1 :=
  (bring_up_examined_calls cfgNoPad osBindFails netif0 (by decide)).1
    (Or.inr (Or.inr (Or.inr (Or.inr (Or.inr (by decide))))))

end Ethernetif
